import Mathlib

/-!
Verification of the genomic cohort delivery pipeline against its design
specification.

The development shallowly embeds the three modules the properties below
concern — `cohort_delivery/merge.py`, `cohort_delivery/transfer.py` and
`cohort_delivery/manifest.py` — as pure Lean functions.  The modules are
orchestrators around external effects (the plink genotype toolkit, rsync,
the filesystem, hashlib); those external behaviours are supplied to the
embedded functions as explicit inputs (directory listings, the contents of
the toolkit's side-output conflict file), and where the specification fixes
their semantics they are modelled from it, with a doc comment saying so.
-/

/-! ## Data model: datasets and filesystem entries -/

/-- A PLINK binary fileset (`.bed`/`.bim`/`.fam` triple) as the abstract
dataset it denotes: an ordered list of sample identifiers (the `.fam` lines)
and an ordered list of marker identifiers (the `.bim` lines). -/
structure Dataset where
  samples : List String
  markers : List String
deriving DecidableEq, Repr

/-- Failure modes of the external genotype toolkit that the Python code
surfaces as raised `CalledProcessError`s (`subprocess.run(..., check=True)`). -/
inductive PlinkError
  | noSamplesRemaining
deriving DecidableEq, Repr

/-- One entry of a directory listing: its name, whether it is a regular
file, its size in bytes, and the digests of its content (hashing itself is
performed by the external hashlib library, so an entry carries the digests
its content would hash to). -/
structure FsEntry where
  name : String
  is_file : Bool
  size : Nat
  md5 : String
  sha256 : String
deriving DecidableEq, Repr

/-! ## External toolkit semantics (modelled from the spec) -/

/-- Modelled from the spec: the external genotype-toolkit subset operation
(`plink --bfile B --keep K --make-bed [--exclude E]`), which is not part of
this repository.  Per §4.1 it produces a dataset containing only the samples
present in both the batch and the keep-list and only the markers not in the
exclusion set, and it fails rather than emitting an empty dataset when the
sample intersection is empty. -/
def plinkSubset (d : Dataset) (keep : List String) (excl : List String) :
    Except PlinkError Dataset :=
  let kept := d.samples.filter (fun s => decide (s ∈ keep))
  if kept = [] then
    .error PlinkError.noSamplesRemaining
  else
    .ok { samples := kept, markers := d.markers.filter (fun m => decide (m ∉ excl)) }

/-- Ordered union used by the merge model: append the elements of `ys` not
already present in `xs`. -/
def dedupUnion (xs ys : List String) : List String :=
  xs ++ ys.filter (fun y => decide (y ∉ xs))

/-- Modelled from the spec: the external toolkit merge (`--merge-list`) over
subsetted datasets, which is not part of this repository.  Per §4.2 the first
dataset is the structural base and the second through Nth are appended into
it; the result's sample and marker lists are the ordered unions of the
inputs'. -/
def plinkMergeDatasets (ds : List Dataset) : Dataset :=
  { samples := ds.foldl (fun acc d => dedupUnion acc d.samples) []
  , markers := ds.foldl (fun acc d => dedupUnion acc d.markers) [] }

/-! ## merge.py embedding -/

/-- Embeds the `MergeReport` dataclass (merge.py lines 28-37) with its
field defaults. -/
structure MergeReport where
  batch_count : Nat := 0
  conflict_snp_count : Nat := 0
  final_sample_count : Nat := 0
  final_variant_count : Nat := 0
  correction_applied : Bool := false
  output_prefix : String := ""
deriving DecidableEq, Repr

/-- Embeds `GenotypeMerger.extract_samples` (merge.py lines 65-101): builds
the toolkit argument list with `--keep` and, when `exclude_snps` is truthy,
`--exclude`, then delegates to the external toolkit (`plinkSubset`). -/
def GenotypeMerger.extract_samples (d : Dataset) (keep_list : List String)
    (exclude_snps : Option (List String)) : Except PlinkError Dataset :=
  match exclude_snps with
  | none => plinkSubset d keep_list []
  | some ex => plinkSubset d keep_list ex

/-- The `Path(bp).name` of a batch storage path: its last `/`-separated
component (batch paths are taken without trailing slashes). -/
def pathName (p : String) : String :=
  (p.splitOn "/").getLastD p

/-- The per-batch extraction loops of `GenotypeMerger.merge` (merge.py lines
137-142 with `suffix = "_subset"` and no exclusions, lines 178-183 with
`suffix = "_corrected"` and the conflict file as exclusions): each batch is
extracted to `work_dir/<name><suffix>`; a toolkit failure propagates
(`check=True`). -/
def extractAll (batches : List (String × Dataset)) (keep_list : List String)
    (exclude_snps : Option (List String)) (work_dir : String) (suffix : String) :
    Except PlinkError (List (String × Dataset)) :=
  match batches with
  | [] => .ok []
  | (bp, d) :: rest =>
    match GenotypeMerger.extract_samples d keep_list exclude_snps with
    | .error e => .error e
    | .ok s =>
      match extractAll rest keep_list exclude_snps work_dir suffix with
      | .error e => .error e
      | .ok tail => .ok ((work_dir ++ "/" ++ pathName bp ++ suffix, s) :: tail)

/-- The externally observable operations a merge run performs, in order:
each sample extraction with the exclusion list it was given (`[]` when no
`--exclude` was passed), the first merge attempt, the corrected re-merge,
the promotion (rename) of a clean first attempt, and the VCF export. -/
inductive MergeEvent
  | extract (excludeLines : List String)
  | mergeAttempt
  | correctedMerge
  | promote
  | vcfExport
deriving DecidableEq, Repr

/-- The full outcome of one `GenotypeMerger.merge` run: the returned report,
the dataset materialised at the report's output location (none when no
output was produced), and the trace of operations performed. -/
structure MergeRunResult where
  report : MergeReport
  output : Option Dataset
  events : List MergeEvent
deriving DecidableEq, Repr

/-- Embeds `GenotypeMerger.merge` (merge.py lines 103-224).  The external
world is supplied as inputs: each batch path is paired with the dataset it
resolves to, and `missnpLines` is the list of lines of the first attempt's
`<attempt>-merge.missnp` side file (`[]` when that file is absent or empty,
merge.py line 168).  Raised `CalledProcessError`s are the `.error` path.
Steps: extract every batch (lines 137-142); with fewer than two subsets
return early with the single subset, if any, as the output (lines 144-148);
otherwise attempt the merge (lines 154-164, `check=False`); a non-empty
conflict file sets `conflict_snp_count` to its line count, re-extracts every
batch excluding it, and re-merges to the final location (lines 166-195); a
clean attempt is renamed to the final location (lines 196-202); the final
sample and variant counts are read back from the persisted `.fam`/`.bim`
files (lines 206-212); optionally the result is exported to VCF (lines
214-222). -/
def GenotypeMerger.merge (batches : List (String × Dataset))
    (keep_list : List String) ( output_prefix : String) (work_dir : String)
    (convert_to_vcf : Bool) (missnpLines : List String) :
    Except PlinkError MergeRunResult :=
  match extractAll batches keep_list none work_dir "_subset" with
  | .error e => .error e
  | .ok subsets =>
    let extractEvents := batches.map (fun _ => MergeEvent.extract [])
    if subsets.length < 2 then
      .ok { report := { batch_count := batches.length
                      , output_prefix := ((subsets.head?).map Prod.fst).getD "" }
          , output := (subsets.head?).map Prod.snd
          , events := extractEvents }
    else
      let attempted := plinkMergeDatasets (subsets.map Prod.snd)
      if missnpLines = [] then
        let evs := extractEvents ++ [MergeEvent.mergeAttempt, MergeEvent.promote]
        .ok { report := { batch_count := batches.length
                        , conflict_snp_count := 0
                        , final_sample_count := attempted.samples.length
                        , final_variant_count := attempted.markers.length
                        , correction_applied := false
                        , output_prefix := output_prefix }
            , output := some attempted
            , events := if convert_to_vcf then evs ++ [MergeEvent.vcfExport] else evs }
      else
        match extractAll batches keep_list (some missnpLines) work_dir "_corrected" with
        | .error e => .error e
        | .ok corrected =>
          let final := plinkMergeDatasets (corrected.map Prod.snd)
          let evs := extractEvents ++ [MergeEvent.mergeAttempt]
            ++ batches.map (fun _ => MergeEvent.extract missnpLines)
            ++ [MergeEvent.correctedMerge]
          .ok { report := { batch_count := batches.length
                          , conflict_snp_count := missnpLines.length
                          , final_sample_count := final.samples.length
                          , final_variant_count := final.markers.length
                          , correction_applied := true
                          , output_prefix := output_prefix }
              , output := some final
              , events := if convert_to_vcf then evs ++ [MergeEvent.vcfExport] else evs }

/-- The conflict-marker identifiers of a detected conflict file as the spec
§4.3 describes them: an ordered list with duplicates removed. -/
def distinctMarkers (missnpLines : List String) : List String :=
  missnpLines.dedup

/-! ## transfer.py embedding -/

/-- Embeds the `TransferReport` dataclass (transfer.py lines 24-33) with its
field defaults. -/
structure TransferReport where
  source_dir : String
  destination_dir : String
  file_count : Nat := 0
  total_bytes : Nat := 0
  verified : Bool := false
  method : String := "rsync"
deriving DecidableEq, Repr

/-- Embeds `SecureTransfer.send` (transfer.py lines 50-112).  The filesystem
is supplied as inputs: `srcEntries` is the source directory listing (`none`
when `source_dir` is not a directory, in which case `NotADirectoryError` is
raised, lines 80-81); `datestamp` stands for
`datetime.now().strftime("%Y%m%d")` (line 83); `destEntries` is the
destination directory listing at verification time, after the external
rsync/copy effect and any post-copy mutation (lines 99-100).  Verification
compares the source and destination regular-file counts only (line 103); a
mismatch is recorded in the report, not raised (lines 105-112). -/
def SecureTransfer.send (srcEntries : Option (List FsEntry))
    (source_dir dest_root project_id method datestamp : String)
    (destEntries : List FsEntry) : Except String TransferReport :=
  match srcEntries with
  | none => .error "NotADirectoryError"
  | some src =>
    let dest := dest_root ++ "/" ++ project_id ++ "_Delivery_" ++ datestamp
    let src_files := src.filter (fun f => f.is_file)
    let dst_files := destEntries.filter (fun f => f.is_file)
    .ok { source_dir := source_dir
        , destination_dir := dest
        , file_count := dst_files.length
        , total_bytes := (dst_files.map (fun f => f.size)).sum
        , verified := src_files.length == dst_files.length
        , method := method }

/-! ## manifest.py embedding -/

/-- Embeds the `FileChecksum` dataclass (manifest.py lines 23-30). -/
structure FileChecksum where
  filename : String
  file_size : Nat
  md5 : String
  sha256 : String
deriving DecidableEq, Repr

/-- Embeds the `DeliveryManifest` dataclass (manifest.py lines 33-48); the
metadata mapping stays empty throughout `generate`. -/
structure DeliveryManifest where
  project_id : String
  delivery_date : String
  files : List FileChecksum := []
  metadata : List (String × String) := []
deriving DecidableEq, Repr

/-- Embeds `ManifestGenerator.compute_checksums` (manifest.py lines 65-90).
Modelled from the spec where content hashing is concerned: the MD5/SHA-256
digesting is performed by the external hashlib library, so the entry carries
the digests its content hashes to and the record copies them out alongside
the name and byte size. -/
def ManifestGenerator.compute_checksums (e : FsEntry) : FileChecksum :=
  { filename := e.name, file_size := e.size, md5 := e.md5, sha256 := e.sha256 }

/-- Python's substring containment `pat in s` on character lists: some
contiguous run of `s` equals `pat` (the empty pattern is contained in
everything). -/
def charSub (pat : List Char) : List Char → Bool
  | [] => pat.isEmpty
  | c :: t => pat.isPrefixOf (c :: t) || charSub pat t

/-- Python's substring containment `pat in s` on strings. -/
def strIn (pat s : String) : Bool :=
  charSub pat.toList s.toList

/-- The default reserved filename tokens of `ManifestGenerator.generate`
(manifest.py line 112). -/
def defaultExcludeTokens : List String := ["MANIFEST", "STATUS"]

/-- Whether a filename is skipped by `ManifestGenerator.generate`:
`any(pat in fp.name for pat in exclude)` (manifest.py line 125). -/
def nameExcluded (exclude : List String) (filename : String) : Bool :=
  exclude.any (fun pat => strIn pat filename)

/-- Lexicographic order on filenames (as code-point lists), the order
`sorted` applies to the directory paths. -/
def nameLe : List Char → List Char → Bool
  | [], _ => true
  | _ :: _, [] => false
  | a :: as, b :: bs =>
    if a.toNat = b.toNat then nameLe as bs else decide (a.toNat < b.toNat)

/-- Insertion step of the name ordering `sorted(directory.iterdir())`
applies to the directory listing (manifest.py line 122). -/
def insertByName (e : FsEntry) : List FsEntry → List FsEntry
  | [] => [e]
  | x :: t =>
    if nameLe e.name.toList x.name.toList then e :: x :: t else x :: insertByName e t

/-- The sorted directory listing `sorted(directory.iterdir())`
(manifest.py line 122). -/
def sortEntries : List FsEntry → List FsEntry
  | [] => []
  | x :: t => insertByName x (sortEntries t)

/-- Embeds `ManifestGenerator.generate` (manifest.py lines 92-129).  The
filesystem is supplied as inputs: `dirEntries` is the delivery directory
listing (`none` when `delivery_dir` is not a directory, in which case
`NotADirectoryError` is raised, lines 114-115) and `todayDate` stands for
`datetime.now().strftime("%Y-%m-%d")` (line 119).  The exclusion set is
`set(exclude_patterns) if exclude_patterns else {"MANIFEST", "STATUS"}`
(line 112): a `None` or empty argument — both falsy — selects the defaults.
The directory is walked in sorted order; non-regular files and files whose
name contains a reserved token are skipped, every other file contributes a
checksum record (lines 122-127). -/
def ManifestGenerator.generate (dirEntries : Option (List FsEntry))
    (project_id : String) (todayDate : String)
    (exclude_patterns : Option (List String)) : Except String DeliveryManifest :=
  let exclude : List String :=
    match exclude_patterns with
    | some pats => if pats = [] then defaultExcludeTokens else pats.dedup
    | none => defaultExcludeTokens
  match dirEntries with
  | none => .error "NotADirectoryError"
  | some entries =>
    .ok { project_id := project_id
        , delivery_date := todayDate
        , files := ((sortEntries entries).filter
              (fun e => e.is_file && !(nameExcluded exclude e.name))).map
            ManifestGenerator.compute_checksums
        , metadata := [] }

/-- Whether a merge-run event reads or rewrites genotype data: a sample
extraction or a merge execution.  Promotion and VCF export only repackage
an already-final result. -/
def isMergeOp : MergeEvent → Bool
  | MergeEvent.extract _ => true
  | MergeEvent.mergeAttempt => true
  | MergeEvent.correctedMerge => true
  | MergeEvent.promote => false
  | MergeEvent.vcfExport => false

/-- Whether a merge-run event is a correction-round extraction: an
extraction run with a non-empty exclusion list (first-round extractions
pass no exclusions). -/
def isCorrectionExtract : MergeEvent → Bool
  | MergeEvent.extract ex => !ex.isEmpty
  | _ => false

/-! ## Helper lemmas -/

theorem extractAll_length (batches : List (String × Dataset))
    (keep_list : List String) (exclude_snps : Option (List String))
    (wd suffix : String) (l : List (String × Dataset))
    (h : extractAll batches keep_list exclude_snps wd suffix = .ok l) :
    l.length = batches.length := by
  induction batches generalizing l with
  | nil =>
    simp only [extractAll] at h
    cases h
    rfl
  | cons b rest ih =>
    obtain ⟨bp, d⟩ := b
    simp only [extractAll] at h
    split at h
    · exact Except.noConfusion h
    · split at h
      · exact Except.noConfusion h
      · next tail htail =>
        injection h with h
        subst h
        simp [ih tail htail]

theorem plinkSubset_ok_markers (d : Dataset) (keep excl : List String)
    (s : Dataset) (h : plinkSubset d keep excl = .ok s) :
    ∀ m ∈ s.markers, m ∉ excl := by
  simp only [plinkSubset] at h
  split at h
  · exact Except.noConfusion h
  · injection h with h
    subst h
    intro m hm
    have := (List.mem_filter.mp hm).2
    simpa using this

theorem plinkSubset_ok_samples (d : Dataset) (keep excl : List String)
    (s : Dataset) (h : plinkSubset d keep excl = .ok s) :
    s.samples ≠ [] := by
  simp only [plinkSubset] at h
  split at h
  · exact Except.noConfusion h
  · next hne =>
    injection h with h
    subst h
    exact hne

theorem extractAll_excludes (batches : List (String × Dataset))
    (keep_list ex : List String) (wd suffix : String)
    (l : List (String × Dataset))
    (h : extractAll batches keep_list (some ex) wd suffix = .ok l) :
    ∀ p ∈ l, ∀ m ∈ (Prod.snd p).markers, m ∉ ex := by
  induction batches generalizing l with
  | nil =>
    simp only [extractAll] at h
    cases h
    simp
  | cons b rest ih =>
    obtain ⟨bp, d⟩ := b
    simp only [extractAll] at h
    split at h
    · exact Except.noConfusion h
    · next s hs =>
      split at h
      · exact Except.noConfusion h
      · next tail htail =>
        injection h with h
        subst h
        intro p hp
        rcases List.mem_cons.mp hp with hhead | htl
        · subst hhead
          exact plinkSubset_ok_markers d keep_list ex s hs
        · exact ih tail htail p htl

theorem mem_foldl_dedupUnion (ls : List (List String)) (acc : List String)
    (m : String) (h : m ∈ ls.foldl dedupUnion acc) :
    m ∈ acc ∨ ∃ l ∈ ls, m ∈ l := by
  induction ls generalizing acc with
  | nil => exact Or.inl h
  | cons x t ih =>
    simp only [List.foldl_cons] at h
    rcases ih (dedupUnion acc x) h with hacc | hex
    · rcases List.mem_append.mp hacc with ha | hx
      · exact Or.inl ha
      · exact Or.inr ⟨x, List.mem_cons_self x t, (List.mem_filter.mp hx).1⟩
    · obtain ⟨l, hl, hm⟩ := hex
      exact Or.inr ⟨l, List.mem_cons_of_mem x hl, hm⟩

theorem plinkMergeDatasets_markers (ds : List Dataset) (m : String)
    (h : m ∈ (plinkMergeDatasets ds).markers) : ∃ d ∈ ds, m ∈ d.markers := by
  simp only [plinkMergeDatasets] at h
  have h' : m ∈ (ds.map Dataset.markers).foldl dedupUnion [] := by
    rw [List.foldl_map]
    exact h
  rcases mem_foldl_dedupUnion (ds.map Dataset.markers) [] m h' with hacc | hex
  · simp at hacc
  · obtain ⟨l, hl, hm⟩ := hex
    obtain ⟨d, hd, rfl⟩ := List.mem_map.mp hl
    exact ⟨d, hd, hm⟩

theorem merge_ok_cases (batches : List (String × Dataset))
    (keep_list : List String) (op wd : String) (cvt : Bool)
    (missnpLines : List String) (r : MergeRunResult)
    (h : GenotypeMerger.merge batches keep_list op wd cvt missnpLines = .ok r) :
    (∃ subsets, extractAll batches keep_list none wd "_subset" = .ok subsets ∧
        subsets.length < 2 ∧
        r = { report := { batch_count := batches.length
                        , output_prefix := ((subsets.head?).map Prod.fst).getD "" }
            , output := (subsets.head?).map Prod.snd
            , events := batches.map (fun _ => MergeEvent.extract []) }) ∨
    (∃ subsets, extractAll batches keep_list none wd "_subset" = .ok subsets ∧
        ¬ subsets.length < 2 ∧ missnpLines = [] ∧
        r = { report := { batch_count := batches.length
                        , conflict_snp_count := 0
                        , final_sample_count :=
                            (plinkMergeDatasets (subsets.map Prod.snd)).samples.length
                        , final_variant_count :=
                            (plinkMergeDatasets (subsets.map Prod.snd)).markers.length
                        , correction_applied := false
                        , output_prefix := op }
            , output := some (plinkMergeDatasets (subsets.map Prod.snd))
            , events :=
                if cvt then
                  batches.map (fun _ => MergeEvent.extract [])
                    ++ [MergeEvent.mergeAttempt, MergeEvent.promote]
                    ++ [MergeEvent.vcfExport]
                else
                  batches.map (fun _ => MergeEvent.extract [])
                    ++ [MergeEvent.mergeAttempt, MergeEvent.promote] }) ∨
    (∃ subsets corrected,
        extractAll batches keep_list none wd "_subset" = .ok subsets ∧
        ¬ subsets.length < 2 ∧ missnpLines ≠ [] ∧
        extractAll batches keep_list (some missnpLines) wd "_corrected" = .ok corrected ∧
        r = { report := { batch_count := batches.length
                        , conflict_snp_count := missnpLines.length
                        , final_sample_count :=
                            (plinkMergeDatasets (corrected.map Prod.snd)).samples.length
                        , final_variant_count :=
                            (plinkMergeDatasets (corrected.map Prod.snd)).markers.length
                        , correction_applied := true
                        , output_prefix := op }
            , output := some (plinkMergeDatasets (corrected.map Prod.snd))
            , events :=
                if cvt then
                  batches.map (fun _ => MergeEvent.extract [])
                    ++ [MergeEvent.mergeAttempt]
                    ++ batches.map (fun _ => MergeEvent.extract missnpLines)
                    ++ [MergeEvent.correctedMerge]
                    ++ [MergeEvent.vcfExport]
                else
                  batches.map (fun _ => MergeEvent.extract [])
                    ++ [MergeEvent.mergeAttempt]
                    ++ batches.map (fun _ => MergeEvent.extract missnpLines)
                    ++ [MergeEvent.correctedMerge] }) := by
  simp only [GenotypeMerger.merge] at h
  split at h
  · exact Except.noConfusion h
  · next subsets hs =>
    by_cases hlen : subsets.length < 2
    · rw [if_pos hlen] at h
      injection h with h
      exact Or.inl ⟨subsets, hs, hlen, h.symm⟩
    · rw [if_neg hlen] at h
      by_cases hm : missnpLines = []
      · rw [if_pos hm] at h
        injection h with h
        exact Or.inr (Or.inl ⟨subsets, hs, hlen, hm, h.symm⟩)
      · rw [if_neg hm] at h
        split at h
        · exact Except.noConfusion h
        · next corrected hcor =>
          injection h with h
          exact Or.inr (Or.inr ⟨subsets, corrected, hs, hlen, hm, hcor, h.symm⟩)

theorem eq_append_cons_unique {α : Type} (a : α) :
    ∀ (L1 l1 L2 l2 : List α), L1 ++ a :: L2 = l1 ++ a :: l2 →
      a ∉ L1 → a ∉ l1 → L2 = l2 := by
  intro L1
  induction L1 with
  | nil =>
    intro l1 L2 l2 h hL hl
    cases l1 with
    | nil => simpa using h
    | cons x t =>
      simp only [List.nil_append, List.cons_append, List.cons.injEq] at h
      exact absurd (h.1 ▸ List.mem_cons_self x t) hl
  | cons y t ih =>
    intro l1 L2 l2 h hL hl
    cases l1 with
    | nil =>
      simp only [List.cons_append, List.nil_append, List.cons.injEq] at h
      exact absurd (by simp [h.1]) hL
    | cons x t1 =>
      simp only [List.cons_append, List.cons.injEq] at h
      exact ih t1 L2 l2 h.2
        (fun hm => hL (List.mem_cons_of_mem y hm))
        (fun hm => hl (List.mem_cons_of_mem x hm))

theorem suffix_of_append_cons {α : Type} [DecidableEq α] (a : α)
    (L1 l1 L2 l2 : List α) (h : L1 ++ a :: L2 = l1 ++ a :: l2)
    (hL1 : a ∉ L1) (hL2 : a ∉ L2) : l2 = L2 := by
  have hl1 : a ∉ l1 := by
    intro hmem
    have hcount := congrArg (List.count a) h
    have h1 : List.count a L1 = 0 := List.count_eq_zero.mpr hL1
    have h2 : List.count a L2 = 0 := List.count_eq_zero.mpr hL2
    have h3 : 0 < List.count a l1 := List.count_pos_iff.mpr hmem
    simp only [List.count_append, List.count_cons_self, h1, h2] at hcount
    omega
  exact (eq_append_cons_unique a L1 l1 L2 l2 h hL1 hl1).symm

/-! ## Claim theorems -/

/-- C10: merging an empty batch list (N = 0) returns a report with
`batch_count = 0`, zero conflicts, no correction, zero final counts and an
empty output location, and the run performs no merge, correction or export
(its event trace is empty). -/
theorem merge_no_batches (keep_list missnpLines : List String) (op wd : String)
    (cvt : Bool) :
    GenotypeMerger.merge [] keep_list op wd cvt missnpLines =
      .ok { report := { batch_count := 0
                      , conflict_snp_count := 0
                      , final_sample_count := 0
                      , final_variant_count := 0
                      , correction_applied := false
                      , output_prefix := "" }
          , output := none
          , events := [] } := rfl

/-- C5: merging a single batch (N = 1) is a no-op merge: provided the
single extraction succeeds, the run raises no error and returns the
subsetted input as its output, with a report recording one batch, zero
conflicts and no correction. -/
theorem merge_single_batch_noop (bp : String) (d s : Dataset)
    (keep_list missnpLines : List String) (op wd : String) (cvt : Bool)
    (h : plinkSubset d keep_list [] = .ok s) :
    GenotypeMerger.merge [(bp, d)] keep_list op wd cvt missnpLines =
      .ok { report := { batch_count := 1
                      , conflict_snp_count := 0
                      , final_sample_count := 0
                      , final_variant_count := 0
                      , correction_applied := false
                      , output_prefix := wd ++ "/" ++ pathName bp ++ "_subset" }
          , output := some s
          , events := [MergeEvent.extract []] } := by
  simp [GenotypeMerger.merge, extractAll, GenotypeMerger.extract_samples, h]

/-- Witness for C5 at a concrete single-batch input. -/
theorem merge_single_batch_noop_witness :
    GenotypeMerger.merge
        [("batch_01", { samples := ["s1", "s2"], markers := ["rs1"] })]
        ["s1"] "cohort_final" "work" true ["rs9"] =
      .ok { report := { batch_count := 1
                      , conflict_snp_count := 0
                      , final_sample_count := 0
                      , final_variant_count := 0
                      , correction_applied := false
                      , output_prefix := "work" ++ "/" ++ pathName "batch_01" ++ "_subset" }
          , output := some { samples := ["s1"], markers := ["rs1"] }
          , events := [MergeEvent.extract []] } :=
  merge_single_batch_noop "batch_01" _ _ _ _ _ _ _ (by rfl)

/-- C2: the sample subsetter fails with the no-samples-remaining toolkit
error when the batch's sample set and the keep-list are disjoint, and a
successful extraction never has an empty sample set — an empty dataset is
never silently emitted. -/
theorem extract_samples_no_empty_output (d : Dataset) (keep_list : List String)
    (exclude_snps : Option (List String)) :
    ((∀ s ∈ d.samples, s ∉ keep_list) →
      GenotypeMerger.extract_samples d keep_list exclude_snps =
        .error PlinkError.noSamplesRemaining) ∧
    (∀ out, GenotypeMerger.extract_samples d keep_list exclude_snps = .ok out →
      out.samples ≠ []) := by
  have key : ∀ excl : List String,
      ((∀ s ∈ d.samples, s ∉ keep_list) →
        plinkSubset d keep_list excl = .error PlinkError.noSamplesRemaining) ∧
      (∀ out, plinkSubset d keep_list excl = .ok out → out.samples ≠ []) := by
    intro excl
    constructor
    · intro hall
      have hfilter : d.samples.filter (fun s => decide (s ∈ keep_list)) = [] :=
        List.filter_eq_nil_iff.mpr (fun a ha => by simpa using hall a ha)
      simp [plinkSubset, hfilter]
    · intro out hout
      exact plinkSubset_ok_samples d keep_list excl out hout
  cases exclude_snps with
  | none => simpa [GenotypeMerger.extract_samples] using key []
  | some ex => simpa [GenotypeMerger.extract_samples] using key ex

/-- Witness for C2 at a concrete batch whose samples miss the keep-list. -/
theorem extract_samples_no_empty_output_witness :
    GenotypeMerger.extract_samples
        { samples := ["s1", "s2"], markers := ["rs1"] } ["s3"] none =
      .error PlinkError.noSamplesRemaining :=
  (extract_samples_no_empty_output
      { samples := ["s1", "s2"], markers := ["rs1"] } ["s3"] none).1
    (by decide)

theorem mem_insertByName (e x : FsEntry) (l : List FsEntry) :
    x ∈ insertByName e l ↔ x = e ∨ x ∈ l := by
  induction l with
  | nil => simp [insertByName]
  | cons y t ih =>
    simp only [insertByName]
    split
    · simp [List.mem_cons]
    · simp only [List.mem_cons, ih]
      tauto

theorem mem_sortEntries (x : FsEntry) (l : List FsEntry) :
    x ∈ sortEntries l ↔ x ∈ l := by
  induction l with
  | nil => simp [sortEntries]
  | cons y t ih => simp [sortEntries, mem_insertByName, ih, List.mem_cons]

/-- C4: a transfer from an existing source directory always returns a
report rather than raising on a verification mismatch; the report's
`verified` flag is true exactly when the source and destination top-level
regular-file counts agree, and its `file_count` is the destination
regular-file count. -/
theorem send_verified_iff_file_counts (src destEntries : List FsEntry)
    (source_dir dest_root project_id method datestamp : String) :
    ∃ r, SecureTransfer.send (some src) source_dir dest_root project_id
        method datestamp destEntries = .ok r ∧
      (r.verified = true ↔
        (src.filter (fun f => f.is_file)).length =
          (destEntries.filter (fun f => f.is_file)).length) ∧
      r.file_count = (destEntries.filter (fun f => f.is_file)).length := by
  refine ⟨_, rfl, ?_, rfl⟩
  simp [SecureTransfer.send]

/-- C8: a transfer from an existing source directory writes to, and reports
as its destination, exactly `dest_root/<project_id>_Delivery_<datestamp>`,
where the datestamp is the current date rendered `YYYYMMDD`. -/
theorem send_destination_dated_path (src destEntries : List FsEntry)
    (source_dir dest_root project_id method datestamp : String) :
    ∃ r, SecureTransfer.send (some src) source_dir dest_root project_id
        method datestamp destEntries = .ok r ∧
      r.destination_dir = dest_root ++ "/" ++ project_id ++ "_Delivery_" ++ datestamp :=
  ⟨_, rfl, rfl⟩

/-- C9: passing an empty exclusion-pattern list to the manifest generator
does not disable exclusion — the empty list is falsy, so the run is
identical to omitting the argument and the default reserved tokens
(MANIFEST, STATUS) still apply. -/
theorem generate_empty_exclusions_use_defaults (dirEntries : Option (List FsEntry))
    (pid todayDate : String) :
    ManifestGenerator.generate dirEntries pid todayDate (some []) =
      ManifestGenerator.generate dirEntries pid todayDate none := rfl

/-- C7: the manifest generated for a delivery directory records a checksum
for every top-level regular file whose name contains no reserved token
(by default MANIFEST and STATUS), and every record it holds comes from such
a file — excluded names and non-regular entries contribute none. -/
theorem manifest_generate_files (entries : List FsEntry)
    (pid todayDate : String) (m : DeliveryManifest)
    (h : ManifestGenerator.generate (some entries) pid todayDate none = .ok m) :
    (∀ e ∈ entries, e.is_file = true →
      nameExcluded defaultExcludeTokens e.name = false →
      ManifestGenerator.compute_checksums e ∈ m.files) ∧
    (∀ fc ∈ m.files, ∃ e ∈ entries, e.is_file = true ∧
      nameExcluded defaultExcludeTokens e.name = false ∧
      fc = ManifestGenerator.compute_checksums e) := by
  simp only [ManifestGenerator.generate] at h
  injection h with h
  subst h
  constructor
  · intro e he hf hex
    exact List.mem_map.mpr
      ⟨e, List.mem_filter.mpr ⟨(mem_sortEntries e entries).mpr he, by simp [hf, hex]⟩, rfl⟩
  · intro fc hfc
    obtain ⟨e, he, rfl⟩ := List.mem_map.mp hfc
    have hmem := List.mem_filter.mp he
    have hpred := hmem.2
    simp only [Bool.and_eq_true, Bool.not_eq_true'] at hpred
    exact ⟨e, (mem_sortEntries e entries).mp hmem.1, hpred.1, hpred.2, rfl⟩

/-- Witness for C7 at a concrete two-file delivery directory. -/
theorem manifest_generate_files_witness :
    ManifestGenerator.compute_checksums
        { name := "data.bed", is_file := true, size := 3, md5 := "x", sha256 := "y" } ∈
      DeliveryManifest.files
        { project_id := "P", delivery_date := "D"
        , files := [ManifestGenerator.compute_checksums
              { name := "data.bed", is_file := true, size := 3, md5 := "x", sha256 := "y" }]
        , metadata := [] } :=
  (manifest_generate_files
      [{ name := "data.bed", is_file := true, size := 3, md5 := "x", sha256 := "y" },
       { name := "MANIFEST.tsv", is_file := true, size := 1, md5 := "m", sha256 := "s" }]
      "P" "D" _ (by rfl)).1
    { name := "data.bed", is_file := true, size := 3, md5 := "x", sha256 := "y" }
    (by simp) rfl (by rfl)

/-- C1 as stated is false on the code: with a conflict-marker file holding
the same identifier on two lines, the report's `conflict_snp_count` is the
file's line count (2), not its count of distinct identifiers (1) — merge.py
line 169 counts lines without removing duplicates. -/
theorem merge_conflict_count_counts_lines_cex :
    (GenotypeMerger.merge
        [("b1", { samples := ["s1"], markers := ["rs1", "rs2"] }),
         ("b2", { samples := ["s1"], markers := ["rs1", "rs2"] })]
        ["s1"] "cohort_final" "work" false ["rs1", "rs1"]).map
      (fun r => MergeReport.conflict_snp_count r.report) = .ok 2 ∧
    (distinctMarkers ["rs1", "rs1"]).length = 1 := by
  constructor
  · rfl
  · rfl

/-- C1 (amended): for every merge run over at least two batches whose first
attempt leaves a non-empty conflict-marker file, the report has
`correction_applied = true` and `conflict_snp_count` equal to the number of
lines of that file (duplicate lines counted as often as they occur), and
the corrected final output contains none of the listed markers. -/
theorem merge_conflict_correction (batches : List (String × Dataset))
    (keep_list missnpLines : List String) (op wd : String) (cvt : Bool)
    (r : MergeRunResult)
    (hn : 2 ≤ batches.length)
    (hm : missnpLines ≠ [])
    (h : GenotypeMerger.merge batches keep_list op wd cvt missnpLines = .ok r) :
    r.report.correction_applied = true ∧
    r.report.conflict_snp_count = missnpLines.length ∧
    ∀ o, r.output = some o → ∀ m ∈ missnpLines, m ∉ o.markers := by
  rcases merge_ok_cases batches keep_list op wd cvt missnpLines r h with
    ⟨subsets, hs, hlen, hr⟩ | ⟨subsets, hs, hlen, hmm, hr⟩ |
    ⟨subsets, corrected, hs, hlen, hne, hcor, hr⟩
  · exfalso
    have hlen2 := extractAll_length batches keep_list none wd "_subset" subsets hs
    omega
  · exact absurd hmm hm
  · subst hr
    refine ⟨rfl, rfl, ?_⟩
    intro o ho m hmem
    injection ho with ho
    subst ho
    intro hcontra
    obtain ⟨d, hd, hmd⟩ := plinkMergeDatasets_markers (corrected.map Prod.snd) m hcontra
    obtain ⟨p, hp, rfl⟩ := List.mem_map.mp hd
    exact absurd hmem
      (extractAll_excludes batches keep_list missnpLines wd "_corrected" corrected hcor p hp m hmd)

/-- Witness for the amended C1 at a concrete two-batch conflicting run. -/
theorem merge_conflict_correction_witness :
    ∃ r, GenotypeMerger.merge
        [("b1", { samples := ["s1"], markers := ["rs1", "rs3"] }),
         ("b2", { samples := ["s1"], markers := ["rs1", "rs3"] })]
        ["s1"] "cohort_final" "work" true ["rs1"] = .ok r ∧
      (r.report.correction_applied = true ∧
       r.report.conflict_snp_count = ["rs1"].length ∧
       ∀ o, r.output = some o → ∀ m ∈ ["rs1"], m ∉ o.markers) :=
  ⟨_, rfl, merge_conflict_correction
      [("b1", { samples := ["s1"], markers := ["rs1", "rs3"] }),
       ("b2", { samples := ["s1"], markers := ["rs1", "rs3"] })]
      ["s1"] ["rs1"] "cohort_final" "work" true _ (by decide) (by decide) rfl⟩

/-- C3: every merge run performs at most one correction round: its trace
holds at most one corrected re-merge, and whenever the trace decomposes
around a corrected re-merge, no extraction or merge operation follows it. -/
theorem merge_at_most_one_correction (batches : List (String × Dataset))
    (keep_list missnpLines : List String) (op wd : String) (cvt : Bool)
    (r : MergeRunResult)
    (h : GenotypeMerger.merge batches keep_list op wd cvt missnpLines = .ok r) :
    List.count MergeEvent.correctedMerge r.events ≤ 1 ∧
    ∀ l1 l2, r.events = l1 ++ MergeEvent.correctedMerge :: l2 →
      ∀ e ∈ l2, isMergeOp e = false := by
  rcases merge_ok_cases batches keep_list op wd cvt missnpLines r h with
    ⟨subsets, hs, hlen, hr⟩ | ⟨subsets, hs, hlen, hmm, hr⟩ |
    ⟨subsets, corrected, hs, hlen, hne, hcor, hr⟩
  · subst hr
    have hcm : MergeEvent.correctedMerge ∉
        batches.map (fun _ => MergeEvent.extract []) := by simp
    constructor
    · exact le_trans (le_of_eq (List.count_eq_zero.mpr hcm)) (Nat.zero_le 1)
    · intro l1 l2 heq e _
      exfalso
      apply hcm
      have heq1 : batches.map (fun _ => MergeEvent.extract [])
          = l1 ++ MergeEvent.correctedMerge :: l2 := heq
      rw [heq1]
      exact List.mem_append_right l1 (List.mem_cons_self _ l2)
  · subst hr
    cases cvt with
    | false =>
      have hcm : MergeEvent.correctedMerge ∉
          batches.map (fun _ => MergeEvent.extract [])
            ++ [MergeEvent.mergeAttempt, MergeEvent.promote] := by simp
      constructor
      · exact le_trans (le_of_eq (List.count_eq_zero.mpr hcm)) (Nat.zero_le 1)
      · intro l1 l2 heq e _
        exfalso
        apply hcm
        have heq1 : batches.map (fun _ => MergeEvent.extract [])
            ++ [MergeEvent.mergeAttempt, MergeEvent.promote]
            = l1 ++ MergeEvent.correctedMerge :: l2 := heq
        rw [heq1]
        exact List.mem_append_right l1 (List.mem_cons_self _ l2)
    | true =>
      have hcm : MergeEvent.correctedMerge ∉
          batches.map (fun _ => MergeEvent.extract [])
            ++ [MergeEvent.mergeAttempt, MergeEvent.promote]
            ++ [MergeEvent.vcfExport] := by simp
      constructor
      · exact le_trans (le_of_eq (List.count_eq_zero.mpr hcm)) (Nat.zero_le 1)
      · intro l1 l2 heq e _
        exfalso
        apply hcm
        have heq1 : batches.map (fun _ => MergeEvent.extract [])
            ++ [MergeEvent.mergeAttempt, MergeEvent.promote]
            ++ [MergeEvent.vcfExport]
            = l1 ++ MergeEvent.correctedMerge :: l2 := heq
        rw [heq1]
        exact List.mem_append_right l1 (List.mem_cons_self _ l2)
  · subst hr
    have hnotmem : MergeEvent.correctedMerge ∉
        batches.map (fun _ => MergeEvent.extract [])
          ++ [MergeEvent.mergeAttempt]
          ++ batches.map (fun _ => MergeEvent.extract missnpLines) := by simp
    cases cvt with
    | false =>
      constructor
      · show List.count MergeEvent.correctedMerge
          ((batches.map (fun _ => MergeEvent.extract [])
            ++ [MergeEvent.mergeAttempt]
            ++ batches.map (fun _ => MergeEvent.extract missnpLines))
            ++ [MergeEvent.correctedMerge]) ≤ 1
        rw [List.count_append, List.count_eq_zero.mpr hnotmem]
        simp
      · intro l1 l2 heq e he
        have heq1 : (batches.map (fun _ => MergeEvent.extract [])
            ++ [MergeEvent.mergeAttempt]
            ++ batches.map (fun _ => MergeEvent.extract missnpLines))
            ++ MergeEvent.correctedMerge :: [] = l1 ++ MergeEvent.correctedMerge :: l2 := heq
        have hl2 := suffix_of_append_cons MergeEvent.correctedMerge _ l1 [] l2
          heq1 hnotmem (by simp)
        subst hl2
        cases he
    | true =>
      constructor
      · show List.count MergeEvent.correctedMerge
          (((batches.map (fun _ => MergeEvent.extract [])
            ++ [MergeEvent.mergeAttempt]
            ++ batches.map (fun _ => MergeEvent.extract missnpLines))
            ++ [MergeEvent.correctedMerge]) ++ [MergeEvent.vcfExport]) ≤ 1
        rw [List.count_append, List.count_append, List.count_eq_zero.mpr hnotmem]
        simp
      · intro l1 l2 heq e he
        have heq1 : ((batches.map (fun _ => MergeEvent.extract [])
            ++ [MergeEvent.mergeAttempt]
            ++ batches.map (fun _ => MergeEvent.extract missnpLines))
            ++ [MergeEvent.correctedMerge]) ++ [MergeEvent.vcfExport]
            = l1 ++ MergeEvent.correctedMerge :: l2 := heq
        rw [List.append_assoc] at heq1
        have hl2 := suffix_of_append_cons MergeEvent.correctedMerge _ l1
          [MergeEvent.vcfExport] l2 (by exact heq1) hnotmem (by simp)
        subst hl2
        rcases List.mem_singleton.mp he with rfl
        rfl

/-- Witness for C3 at a concrete two-batch conflicting run with export. -/
theorem merge_at_most_one_correction_witness :
    List.count MergeEvent.correctedMerge
      [MergeEvent.extract [], MergeEvent.extract [], MergeEvent.mergeAttempt,
       MergeEvent.extract ["rs1"], MergeEvent.extract ["rs1"],
       MergeEvent.correctedMerge, MergeEvent.vcfExport] ≤ 1 :=
  (merge_at_most_one_correction
      [("b1", { samples := ["s1"], markers := ["rs1", "rs2"] }),
       ("b2", { samples := ["s1"], markers := ["rs1", "rs2"] })]
      ["s1"] ["rs1"] "cohort_final" "work" true _ rfl).1

/-- C6: whenever a correction round runs, the detected exclusion set is
applied identically to every batch: the correction-round extractions are
exactly one per batch, each carrying the full conflict-marker line list as
its exclusion list — no batch is skipped or given a different set. -/
theorem merge_correction_uniform_exclusions (batches : List (String × Dataset))
    (keep_list missnpLines : List String) (op wd : String) (cvt : Bool)
    (r : MergeRunResult)
    (h : GenotypeMerger.merge batches keep_list op wd cvt missnpLines = .ok r)
    (hc : r.report.correction_applied = true) :
    r.events.filter isCorrectionExtract =
      batches.map (fun _ => MergeEvent.extract missnpLines) := by
  rcases merge_ok_cases batches keep_list op wd cvt missnpLines r h with
    ⟨subsets, hs, hlen, hr⟩ | ⟨subsets, hs, hlen, hmm, hr⟩ |
    ⟨subsets, corrected, hs, hlen, hne, hcor, hr⟩
  · subst hr
    have hc1 : (false : Bool) = true := hc
    exact absurd hc1 (by decide)
  · subst hr
    have hc1 : (false : Bool) = true := hc
    exact absurd hc1 (by decide)
  · subst hr
    obtain ⟨m0, ms, rfl⟩ := List.exists_cons_of_ne_nil hne
    have hfilter0 : (batches.map (fun _ => MergeEvent.extract [])).filter
        isCorrectionExtract = [] := by
      rw [List.filter_eq_nil_iff]
      intro a ha
      obtain ⟨b, _, rfl⟩ := List.mem_map.mp ha
      simp [isCorrectionExtract]
    have hfilter1 : (batches.map (fun _ => MergeEvent.extract (m0 :: ms))).filter
        isCorrectionExtract = batches.map (fun _ => MergeEvent.extract (m0 :: ms)) := by
      rw [List.filter_eq_self]
      intro a ha
      obtain ⟨b, _, rfl⟩ := List.mem_map.mp ha
      simp [isCorrectionExtract]
    cases cvt with
    | false =>
      show ((batches.map (fun _ => MergeEvent.extract [])
          ++ [MergeEvent.mergeAttempt]
          ++ batches.map (fun _ => MergeEvent.extract (m0 :: ms)))
          ++ [MergeEvent.correctedMerge]).filter isCorrectionExtract
          = batches.map (fun _ => MergeEvent.extract (m0 :: ms))
      rw [List.filter_append, List.filter_append, List.filter_append,
        hfilter0, hfilter1]
      simp [isCorrectionExtract]
    | true =>
      show (((batches.map (fun _ => MergeEvent.extract [])
          ++ [MergeEvent.mergeAttempt]
          ++ batches.map (fun _ => MergeEvent.extract (m0 :: ms)))
          ++ [MergeEvent.correctedMerge]) ++ [MergeEvent.vcfExport]).filter
          isCorrectionExtract
          = batches.map (fun _ => MergeEvent.extract (m0 :: ms))
      rw [List.filter_append, List.filter_append, List.filter_append,
        List.filter_append, hfilter0, hfilter1]
      simp [isCorrectionExtract]

/-- Witness for C6 at a concrete two-batch conflicting run. -/
theorem merge_correction_uniform_exclusions_witness :
    List.filter isCorrectionExtract
      [MergeEvent.extract [], MergeEvent.extract [], MergeEvent.mergeAttempt,
       MergeEvent.extract ["rs1"], MergeEvent.extract ["rs1"],
       MergeEvent.correctedMerge] =
      [MergeEvent.extract ["rs1"], MergeEvent.extract ["rs1"]] :=
  merge_correction_uniform_exclusions
    [("b1", { samples := ["s1"], markers := ["rs1", "rs2"] }),
     ("b2", { samples := ["s1"], markers := ["rs1", "rs2"] })]
    ["s1"] ["rs1"] "cohort_final" "work" false _ rfl rfl
